import Mathlib

/-!
Verification development for the pizza-delivery-app repository.

The frontend JavaScript (cart hook, chatbot component, order submission
hook) is embedded directly from the sources under `frontend/src/`.  The
backend is represented by the data model and code snippets quoted in the
repository's README and chatbot documentation, and, where the backend
implementation itself is absent, by definitions modelled from the spec
(each such definition says so in its doc comment).

Monetary amounts are embedded as rationals (`ℚ`): the JavaScript code
computes with binary doubles, which we idealise as exact decimal values;
every divergence we exhibit is one that is insensitive to this
idealisation (it concerns the order of rounding, not float error).
-/

namespace PizzaApp

/-! ## Cart (frontend/src/hooks/useCart.js)

`useCart` keeps `cart` as an array of
`{ pizza_id, pizza_name, price, quantity }` objects. -/

structure Pizza where
  id : Nat
  name : String
  price : ℚ
  deriving Repr, DecidableEq

structure CartItem where
  pizza_id : Nat
  pizza_name : String
  price : ℚ
  quantity : ℤ
  deriving Repr, DecidableEq

/-- `toFixed(2)`-style rounding to two fraction digits, idealised over ℚ
as round-half-up: `(x*100 + 1/2).floor / 100`. -/
def round2 (x : ℚ) : ℚ := (Rat.floor (x * 100 + 1/2) : ℤ) / 100

/-- One line's amount: unit price times quantity. -/
def lineAmount (item : CartItem) : ℚ := item.price * item.quantity

/-- The unrounded sum `cart.reduce((total, item) => total + price*quantity, 0)`
from `cartTotal` / `getTotalPrice`, summed left-to-right in insertion order. -/
def cartSum (cart : List CartItem) : ℚ :=
  cart.foldl (fun total item => total + lineAmount item) 0

/-- `cartTotal` from useCart.js (and `getTotalPrice` from App.js):
sum all line amounts, then apply `.toFixed(2)` once to the grand total. -/
def cartTotal (cart : List CartItem) : ℚ := round2 (cartSum cart)

/-- `addToCart(pizza)` from useCart.js: if an item with the pizza's id is
present, increment its quantity, else append a fresh item of quantity 1. -/
def addToCart (pizza : Pizza) (cart : List CartItem) : List CartItem :=
  if cart.any (fun item => item.pizza_id = pizza.id) then
    cart.map (fun item =>
      if item.pizza_id = pizza.id then { item with quantity := item.quantity + 1 } else item)
  else
    cart ++ [{ pizza_id := pizza.id, pizza_name := pizza.name, price := pizza.price,
               quantity := 1 }]

/-- `removeFromCart(pizzaId)`: keep the items whose id differs. -/
def removeFromCart (pizzaId : Nat) (cart : List CartItem) : List CartItem :=
  cart.filter (fun item => item.pizza_id ≠ pizzaId)

/-- `updateQuantity(pizzaId, newQuantity)`: delegate to `removeFromCart`
when the new quantity is ≤ 0, else overwrite the matching item's quantity. -/
def updateQuantity (pizzaId : Nat) (newQuantity : ℤ) (cart : List CartItem) :
    List CartItem :=
  if newQuantity ≤ 0 then removeFromCart pizzaId cart
  else
    cart.map (fun item =>
      if item.pizza_id = pizzaId then { item with quantity := newQuantity } else item)

/-- `clearCart()`. -/
def clearCart : List CartItem := []

/-- The cart invariant implicit in useCart.js: pizza ids are pairwise
distinct and every quantity is at least 1. -/
def CartInvariant (cart : List CartItem) : Prop :=
  cart.Pairwise (fun a b => a.pizza_id ≠ b.pizza_id) ∧
    ∀ item ∈ cart, 1 ≤ item.quantity

/-- The per-line pricing formula claimed by the spec (§4.2): round each
line to two fraction digits half-up, then sum in insertion order. -/
def specLineRoundedTotal (cart : List CartItem) : ℚ :=
  (cart.map (fun item => round2 (lineAmount item))).sum

/-! ### Cart lemmas -/

theorem rat_floor_eq_int_floor (q : ℚ) : (Rat.floor q : ℤ) = ⌊q⌋ := by
  rw [Rat.floor_def, Rat.floor_def']

/-- An amount expressible in whole cents (at most two fraction digits). -/
def IsCents (x : ℚ) : Prop := ∃ m : ℤ, x = m / 100

theorem round2_int_div (m : ℤ) : round2 ((m : ℚ) / 100) = (m : ℚ) / 100 := by
  unfold round2
  rw [rat_floor_eq_int_floor]
  have h : ((m : ℚ) / 100) * 100 + 1/2 = (m : ℚ) + 1/2 := by ring
  rw [h, Int.floor_int_add]
  norm_num

theorem IsCents.round2_eq {x : ℚ} (h : IsCents x) : round2 x = x := by
  obtain ⟨m, rfl⟩ := h
  exact round2_int_div m

theorem IsCents.mul_int {x : ℚ} (h : IsCents x) (k : ℤ) : IsCents (x * k) := by
  obtain ⟨m, rfl⟩ := h
  exact ⟨m * k, by push_cast; ring⟩

theorem IsCents.add {x y : ℚ} (hx : IsCents x) (hy : IsCents y) : IsCents (x + y) := by
  obtain ⟨m, rfl⟩ := hx
  obtain ⟨n, rfl⟩ := hy
  exact ⟨m + n, by push_cast; ring⟩

theorem IsCents.zero : IsCents 0 := ⟨0, by norm_num⟩

theorem cents_list_sum {l : List ℚ} (h : ∀ x ∈ l, IsCents x) : IsCents l.sum := by
  induction l with
  | nil => simpa using IsCents.zero
  | cons a t ih =>
      rw [List.sum_cons]
      exact (h a (List.mem_cons_self a t)).add
        (ih fun x hx => h x (List.mem_cons_of_mem a hx))

theorem foldl_add_eq_sum (f : CartItem → ℚ) :
    ∀ (l : List CartItem) (a : ℚ),
      l.foldl (fun t i => t + f i) a = a + (l.map f).sum := by
  intro l
  induction l with
  | nil => intro a; simp
  | cons x t ih =>
      intro a
      simp only [List.foldl_cons, List.map_cons, List.sum_cons]
      rw [ih]
      ring

theorem cartSum_eq_map_sum (cart : List CartItem) :
    cartSum cart = (cart.map lineAmount).sum := by
  unfold cartSum
  rw [foldl_add_eq_sum]
  simp

/-- **C1**: the cart total as computed by the code — all line amounts summed
(in insertion order), then rounded once — does NOT round each line to two
fraction digits before summation, as the spec's binding policy claims.
With two lines of unit price 1.004 and quantity 1, the code yields 2.01
while the spec's round-half-up-per-line-then-sum policy yields 2.00. -/
theorem C1_counterexample :
    cartTotal [⟨1, "A", 1004/1000, 1⟩, ⟨2, "B", 1004/1000, 1⟩] = 201/100 ∧
    specLineRoundedTotal [⟨1, "A", 1004/1000, 1⟩, ⟨2, "B", 1004/1000, 1⟩] = 2 ∧
    cartTotal [⟨1, "A", 1004/1000, 1⟩, ⟨2, "B", 1004/1000, 1⟩] ≠
      specLineRoundedTotal [⟨1, "A", 1004/1000, 1⟩, ⟨2, "B", 1004/1000, 1⟩] := by
  norm_num [cartTotal, cartSum, specLineRoundedTotal, lineAmount, round2, Rat.floor]

/-- **C1 (amended)**: the computed total is the insertion-order sum of the
line amounts rounded once, after summation; whenever every unit price has
at most two fraction digits (as all catalog prices do), this coincides
with the claimed per-line round-half-up-then-sum policy. -/
theorem C1_cart_total (cart : List CartItem)
    (h : ∀ item ∈ cart, IsCents item.price) :
    cartTotal cart = specLineRoundedTotal cart ∧
      cartTotal cart = round2 (cartSum cart) := by
  refine ⟨?_, rfl⟩
  have hlines : ∀ x ∈ cart.map lineAmount, IsCents x := by
    intro x hx
    obtain ⟨i, hi, hix⟩ := List.mem_map.mp hx
    rw [← hix]
    exact (h i hi).mul_int i.quantity
  have hsum : IsCents (cartSum cart) := by
    rw [cartSum_eq_map_sum]
    exact cents_list_sum hlines
  have h1 : cartTotal cart = cartSum cart := hsum.round2_eq
  have h2 : specLineRoundedTotal cart = cartSum cart := by
    unfold specLineRoundedTotal
    rw [cartSum_eq_map_sum]
    congr 1
    apply List.map_congr_left
    intro i hi
    exact ((h i hi).mul_int i.quantity).round2_eq
  rw [h1, h2]

/-- Witness for C1_cart_total at a concrete two-line cart. -/
theorem C1_cart_total_witness :
    cartTotal [⟨1, "Margherita", 1299/100, 2⟩, ⟨2, "Pepperoni", 1499/100, 1⟩] =
      specLineRoundedTotal
        [⟨1, "Margherita", 1299/100, 2⟩, ⟨2, "Pepperoni", 1499/100, 1⟩] :=
  (C1_cart_total [⟨1, "Margherita", 1299/100, 2⟩, ⟨2, "Pepperoni", 1499/100, 1⟩]
    (by
      intro item hitem
      simp only [List.mem_cons, List.not_mem_nil, or_false] at hitem
      rcases hitem with rfl | rfl
      · exact ⟨1299, by norm_num⟩
      · exact ⟨1499, by norm_num⟩)).1

theorem cartInvariant_nil : CartInvariant [] :=
  ⟨List.Pairwise.nil, by simp⟩

theorem cartInvariant_addToCart (pizza : Pizza) (cart : List CartItem)
    (h : CartInvariant cart) : CartInvariant (addToCart pizza cart) := by
  obtain ⟨hpw, hq⟩ := h
  unfold addToCart
  by_cases hc : cart.any (fun item => item.pizza_id = pizza.id) = true
  · rw [if_pos hc]
    constructor
    · refine List.Pairwise.map _ ?_ hpw
      intro a b hab
      by_cases ha : a.pizza_id = pizza.id <;> by_cases hb : b.pizza_id = pizza.id <;>
        simp [ha, hb] <;> omega
    · intro item hitem
      obtain ⟨a, ha, rfl⟩ := List.mem_map.mp hitem
      have := hq a ha
      by_cases h1 : a.pizza_id = pizza.id <;> simp [h1] <;> omega
  · rw [if_neg hc]
    simp only [List.any_eq_true, decide_eq_true_eq, not_exists, not_and] at hc
    constructor
    · rw [List.pairwise_append]
      refine ⟨hpw, List.pairwise_singleton _ _, ?_⟩
      intro a ha b hb
      simp only [List.mem_singleton] at hb
      subst hb
      exact hc a ha
    · intro item hitem
      rcases List.mem_append.mp hitem with h1 | h1
      · exact hq item h1
      · simp only [List.mem_singleton] at h1
        subst h1
        norm_num

theorem cartInvariant_removeFromCart (pizzaId : Nat) (cart : List CartItem)
    (h : CartInvariant cart) : CartInvariant (removeFromCart pizzaId cart) := by
  obtain ⟨hpw, hq⟩ := h
  constructor
  · exact List.Pairwise.sublist (List.filter_sublist cart) hpw
  · intro item hitem
    exact hq item (List.mem_of_mem_filter hitem)

theorem cartInvariant_updateQuantity (pizzaId : Nat) (newQuantity : ℤ)
    (cart : List CartItem) (h : CartInvariant cart) :
    CartInvariant (updateQuantity pizzaId newQuantity cart) := by
  unfold updateQuantity
  by_cases hn : newQuantity ≤ 0
  · rw [if_pos hn]
    exact cartInvariant_removeFromCart pizzaId cart h
  · rw [if_neg hn]
    obtain ⟨hpw, hq⟩ := h
    constructor
    · refine List.Pairwise.map _ ?_ hpw
      intro a b hab
      by_cases ha : a.pizza_id = pizzaId <;> by_cases hb : b.pizza_id = pizzaId <;>
        simp [ha, hb] <;> omega
    · intro item hitem
      obtain ⟨a, ha, rfl⟩ := List.mem_map.mp hitem
      have := hq a ha
      by_cases h1 : a.pizza_id = pizzaId <;> simp [h1] <;> omega

/-- **C9**: starting from the empty cart, every cart operation of useCart.js
preserves the invariant that pizza ids are pairwise distinct and every
quantity is at least 1. -/
theorem C9_cart_invariant_preserved :
    CartInvariant clearCart ∧
    (∀ (pizza : Pizza) (cart : List CartItem),
        CartInvariant cart → CartInvariant (addToCart pizza cart)) ∧
    (∀ (pizzaId : Nat) (cart : List CartItem),
        CartInvariant cart → CartInvariant (removeFromCart pizzaId cart)) ∧
    (∀ (pizzaId : Nat) (newQuantity : ℤ) (cart : List CartItem),
        CartInvariant cart → CartInvariant (updateQuantity pizzaId newQuantity cart)) :=
  ⟨cartInvariant_nil, cartInvariant_addToCart, cartInvariant_removeFromCart,
   cartInvariant_updateQuantity⟩

/-- Witness for C9 at a concrete cart: adding a pizza twice to the empty
cart keeps the invariant. -/
theorem C9_cart_invariant_preserved_witness :
    CartInvariant (addToCart ⟨1, "Margherita", 1299/100⟩
      (addToCart ⟨1, "Margherita", 1299/100⟩ clearCart)) :=
  C9_cart_invariant_preserved.2.1 _ _
    (C9_cart_invariant_preserved.2.1 _ _ C9_cart_invariant_preserved.1)

/-- **C10**: for a non-positive quantity, `updateQuantity` coincides with
`removeFromCart`: the targeted item is removed outright and exactly the
items with a different pizza id remain, unchanged. -/
theorem C10_updateQuantity_nonpos (pizzaId : Nat) (newQuantity : ℤ)
    (cart : List CartItem) (h : newQuantity ≤ 0) :
    updateQuantity pizzaId newQuantity cart = removeFromCart pizzaId cart ∧
    ∀ x : CartItem,
      x ∈ updateQuantity pizzaId newQuantity cart ↔ x ∈ cart ∧ x.pizza_id ≠ pizzaId := by
  have he : updateQuantity pizzaId newQuantity cart = removeFromCart pizzaId cart := by
    unfold updateQuantity
    rw [if_pos h]
  refine ⟨he, ?_⟩
  intro x
  rw [he]
  unfold removeFromCart
  simp [List.mem_filter]

/-- Witness for C10 at quantity 0 on a two-item cart. -/
theorem C10_updateQuantity_nonpos_witness :
    updateQuantity 1 0 [⟨1, "A", 1299/100, 2⟩, ⟨2, "B", 1499/100, 1⟩] =
      removeFromCart 1 [⟨1, "A", 1299/100, 2⟩, ⟨2, "B", 1499/100, 1⟩] :=
  (C10_updateQuantity_nonpos 1 0 [⟨1, "A", 1299/100, 2⟩, ⟨2, "B", 1499/100, 1⟩]
    (by decide)).1

/-! ## Context Builder (`_prepare_conversation_context`)

Embeds the Python method quoted in the chatbot documentation:
```
history = self.conversation_history.get(session_id, [])
context = " ".join([msg["content"] for msg in history[-5:]])
return f"{context} {message}".strip()
```
Python text is embedded as `List Char`. -/

/-- The whitespace characters stripped by Python's `str.strip()`. -/
def pyWhitespace (c : Char) : Bool :=
  c = ' ' || c = '\t' || c = '\n' || c = '\x0d' ||
    c = Char.ofNat 11 || c = Char.ofNat 12

/-- Python `str.strip()`: drop whitespace from both ends. -/
def pyStrip (s : List Char) : List Char :=
  ((s.dropWhile pyWhitespace).reverse.dropWhile pyWhitespace).reverse

/-- Python `" ".join(...)`. -/
def joinSpace : List (List Char) → List Char
  | [] => []
  | [s] => s
  | s :: rest => s ++ ' ' :: joinSpace rest

/-- Python `l[-n:]`: the last `n` elements (all of them when fewer). -/
def lastN (n : Nat) (l : List α) : List α := l.drop (l.length - n)

/-- One stored chat message (a dict with a `"content"` entry). -/
structure PyMessage where
  role : List Char
  content : List Char
  deriving Repr, DecidableEq

/-- `_prepare_conversation_context(message, session_id)` on the session's
history: join the contents of the last 5 messages with single spaces,
append the incoming message after a space, and strip the ends. -/
def prepareConversationContext (message : List Char) (history : List PyMessage) :
    List Char :=
  let context := joinSpace ((lastN 5 history).map PyMessage.content)
  pyStrip (context ++ [' '] ++ message)

/-- Text that is nonempty and has no leading whitespace. -/
def headNonWS : List Char → Bool
  | [] => false
  | c :: _ => !pyWhitespace c

/-- Text that is nonempty with no leading or trailing whitespace
(so that `strip` cannot disturb it). -/
def cleanText (s : List Char) : Bool := headNonWS s && headNonWS s.reverse

/-! ### Context Builder lemmas -/

theorem cleanText_ne_nil {s : List Char} (h : cleanText s = true) : s ≠ [] := by
  intro hs
  subst hs
  simp [cleanText, headNonWS] at h

theorem dropWhile_of_headNonWS {s : List Char} (h : headNonWS s = true) :
    s.dropWhile pyWhitespace = s := by
  cases s with
  | nil => rfl
  | cons c t =>
      simp only [headNonWS, Bool.not_eq_true'] at h
      simp [List.dropWhile_cons, h]

theorem pyStrip_of_clean {s : List Char} (h : cleanText s = true) : pyStrip s = s := by
  have h' : headNonWS s = true ∧ headNonWS s.reverse = true := by
    simpa [cleanText] using h
  obtain ⟨h1, h2⟩ := h'
  unfold pyStrip
  rw [dropWhile_of_headNonWS h1, dropWhile_of_headNonWS h2, List.reverse_reverse]

theorem headNonWS_append {s : List Char} (u : List Char) (h : s ≠ []) :
    headNonWS (s ++ u) = headNonWS s := by
  cases s with
  | nil => exact absurd rfl h
  | cons c t => rfl

theorem cleanText_append_middle {s t : List Char} (w : List Char)
    (hs : cleanText s = true) (ht : cleanText t = true) :
    cleanText (s ++ (w ++ t)) = true := by
  have hs' : headNonWS s = true ∧ headNonWS s.reverse = true := by
    simpa [cleanText] using hs
  have ht' : headNonWS t = true ∧ headNonWS t.reverse = true := by
    simpa [cleanText] using ht
  have hsne : s ≠ [] := cleanText_ne_nil hs
  have htne : t ≠ [] := cleanText_ne_nil ht
  have htrne : t.reverse ≠ [] := by
    simpa using htne
  have goal : headNonWS (s ++ (w ++ t)) = true ∧
      headNonWS (s ++ (w ++ t)).reverse = true := by
    constructor
    · rw [headNonWS_append (w ++ t) hsne]
      exact hs'.1
    · rw [List.reverse_append, List.reverse_append]
      rw [List.append_assoc, headNonWS_append _ htrne]
      exact ht'.2
  simpa [cleanText] using goal

theorem joinSpace_append_single (x : List Char) :
    ∀ L : List (List Char), L ≠ [] →
      joinSpace (L ++ [x]) = joinSpace L ++ ' ' :: x := by
  intro L
  induction L with
  | nil => intro h; exact absurd rfl h
  | cons a rest ih =>
      intro _
      cases rest with
      | nil => rfl
      | cons b rest2 =>
          have ihx := ih (by simp)
          show a ++ ' ' :: joinSpace (b :: (rest2 ++ [x])) =
            (a ++ ' ' :: joinSpace (b :: rest2)) ++ ' ' :: x
          rw [show b :: (rest2 ++ [x]) = (b :: rest2) ++ [x] from rfl, ihx]
          simp

theorem joinSpace_clean :
    ∀ L : List (List Char), L ≠ [] → (∀ s ∈ L, cleanText s = true) →
      cleanText (joinSpace L) = true := by
  intro L
  induction L with
  | nil => intro h; exact absurd rfl h
  | cons a rest ih =>
      intro _ hall
      cases rest with
      | nil => exact hall a (by simp)
      | cons b rest2 =>
          have hrec := ih (by simp) (fun s hs => hall s (List.mem_cons_of_mem a hs))
          have ha := hall a (by simp)
          show cleanText (a ++ ' ' :: joinSpace (b :: rest2)) = true
          exact cleanText_append_middle [' '] ha hrec

theorem pyStrip_space_cons (s : List Char) : pyStrip (' ' :: s) = pyStrip s := by
  have h : List.dropWhile pyWhitespace (' ' :: s) = List.dropWhile pyWhitespace s := by
    simp [List.dropWhile_cons, pyWhitespace]
  unfold pyStrip
  rw [h]

/-- **C3**: the built prompt context is exactly the contents of the most
recent 5 session messages (all of them when fewer than 5 exist), oldest of
the 5 first, joined with single spaces, followed by the new incoming user
message; messages older than the last 5 do not appear.  Hypotheses: every
involved text is nonempty with no whitespace at its ends, so that Python's
final `strip()` is neutral. -/
theorem C3_prepare_context (message : List Char) (history : List PyMessage)
    (hm : cleanText message = true)
    (hh : ∀ m ∈ lastN 5 history, cleanText m.content = true) :
    prepareConversationContext message history =
      joinSpace (((lastN 5 history).map PyMessage.content) ++ [message]) ∧
    (history.length ≤ 5 → lastN 5 history = history) ∧
    (lastN 5 history).length = min 5 history.length := by
  refine ⟨?_, ?_, ?_⟩
  · show pyStrip (joinSpace ((lastN 5 history).map PyMessage.content) ++ [' '] ++ message) =
        joinSpace (((lastN 5 history).map PyMessage.content) ++ [message])
    by_cases hL : (lastN 5 history).map PyMessage.content = []
    · rw [hL]
      rw [show joinSpace ([] : List (List Char)) = ([] : List Char) from rfl]
      rw [show ([] : List Char) ++ [' '] ++ message = ' ' :: message by simp]
      rw [pyStrip_space_cons, pyStrip_of_clean hm]
      rfl
    · have hclean : ∀ s ∈ (lastN 5 history).map PyMessage.content, cleanText s = true := by
        intro s hs
        obtain ⟨m, hmem, hms⟩ := List.mem_map.mp hs
        rw [← hms]
        exact hh m hmem
      have hctx : cleanText (joinSpace ((lastN 5 history).map PyMessage.content)) = true :=
        joinSpace_clean _ hL hclean
      have hcomb :
          cleanText (joinSpace ((lastN 5 history).map PyMessage.content) ++
            ([' '] ++ message)) = true :=
        cleanText_append_middle [' '] hctx hm
      rw [joinSpace_append_single message _ hL]
      rw [List.append_assoc]
      rw [pyStrip_of_clean hcomb]
      rfl
  · intro h
    unfold lastN
    have : history.length - 5 = 0 := by omega
    rw [this, List.drop_zero]
  · unfold lastN
    rw [List.length_drop]
    omega

/-- Witness for C3 on a session holding 6 one-character messages: the 6th
oldest is excluded, the newest 5 and the incoming message are joined. -/
theorem C3_prepare_context_witness :
    prepareConversationContext ['h', 'i']
      [⟨['u'], ['a']⟩, ⟨['b'], ['b']⟩, ⟨['u'], ['c']⟩, ⟨['b'], ['d']⟩,
       ⟨['u'], ['e']⟩, ⟨['b'], ['f']⟩] =
      joinSpace (((lastN 5
        [⟨['u'], ['a']⟩, ⟨['b'], ['b']⟩, ⟨['u'], ['c']⟩, ⟨['b'], ['d']⟩,
         ⟨['u'], ['e']⟩, ⟨['b'], ['f']⟩]).map PyMessage.content) ++ [['h', 'i']]) :=
  (C3_prepare_context ['h', 'i'] _ (by decide) (by decide)).1

/-! ## Chatbot component (frontend/src/components, `Chatbot`)

`sendMessage` guards on a blank input, appends the trimmed user message,
performs the fetch, and appends exactly one bot message in every branch
(success, HTTP error, network failure); `clearChat` empties the list. -/

/-- JavaScript `String.prototype.trim()` (same whitespace stripping as
`pyStrip` for the characters that occur here). -/
def jsTrim : List Char → List Char := pyStrip

/-- The `sender` tag of a displayed message (the code uses the strings
`"user"` and `"bot"`). -/
inductive Sender where
  | user
  | bot
  deriving Repr, DecidableEq

structure UiMessage where
  text : List Char
  sender : Sender
  deriving Repr, DecidableEq

/-- Outcome of the `fetch` to `POST /api/chat/`. -/
inductive FetchOutcome where
  | ok (response : List Char)
  | httpError (err : Option (List Char))
  | netFail
  deriving Repr, DecidableEq

/-- `sendMessage` from the Chatbot component: do nothing on blank input;
otherwise append the trimmed user message and then exactly one bot
message — the produced response on success, an error text otherwise. -/
def sendMessage (inputMessage : List Char) (messages : List UiMessage)
    (outcome : FetchOutcome) : List UiMessage :=
  if jsTrim inputMessage = [] then messages
  else
    let userMessage := jsTrim inputMessage
    let withUser := messages ++ [⟨userMessage, Sender.user⟩]
    match outcome with
    | FetchOutcome.ok r => withUser ++ [⟨r, Sender.bot⟩]
    | FetchOutcome.httpError e =>
        withUser ++ [⟨"Error: ".toList ++ (e.getD "Failed to get response".toList),
          Sender.bot⟩]
    | FetchOutcome.netFail =>
        withUser ++
          [⟨"Sorry, I\x27m having trouble connecting right now. Please try again in a moment.".toList,
            Sender.bot⟩]

/-- `clearChat` from the Chatbot component: `setMessages([])`. -/
def clearChat : List UiMessage := []

/-- A run of N completed (successful) chat exchanges, each a pair of the
typed input and the response the backend produced. -/
def runChatExchanges (exchanges : List (List Char × List Char))
    (messages : List UiMessage) : List UiMessage :=
  exchanges.foldl (fun msgs e => sendMessage e.1 msgs (FetchOutcome.ok e.2)) messages

/-! ### Chatbot lemmas -/

theorem sendMessage_ok_of_nonblank (input : List Char) (messages : List UiMessage)
    (r : List Char) (h : jsTrim input ≠ []) :
    sendMessage input messages (FetchOutcome.ok r) =
      messages ++ [⟨jsTrim input, Sender.user⟩, ⟨r, Sender.bot⟩] := by
  unfold sendMessage
  rw [if_neg h]
  simp

theorem runChatExchanges_eq (exchanges : List (List Char × List Char))
    (h : ∀ e ∈ exchanges, jsTrim e.1 ≠ []) :
    ∀ messages : List UiMessage,
      runChatExchanges exchanges messages =
        messages ++
          (exchanges.map (fun e =>
            [(⟨jsTrim e.1, Sender.user⟩ : UiMessage), ⟨e.2, Sender.bot⟩])).flatten := by
  induction exchanges with
  | nil => intro messages; simp [runChatExchanges]
  | cons e rest ih =>
      intro messages
      have he : jsTrim e.1 ≠ [] := h e (by simp)
      have hrest : ∀ x ∈ rest, jsTrim x.1 ≠ [] :=
        fun x hx => h x (List.mem_cons_of_mem e hx)
      show runChatExchanges rest
          (sendMessage e.1 messages (FetchOutcome.ok e.2)) = _
      rw [sendMessage_ok_of_nonblank e.1 messages e.2 he, ih hrest]
      simp

theorem join_pairs_length (l : List (List Char × List Char))
    (f : List Char × List Char → UiMessage) (g : List Char × List Char → UiMessage) :
    ((l.map (fun e => [f e, g e])).flatten).length = 2 * l.length := by
  induction l with
  | nil => rfl
  | cons e rest ih =>
      simp only [List.map_cons, List.flatten_cons, List.length_cons]
      simp only [List.length_append, List.length_cons, List.length_nil, ih]
      omega

/-- **C2**: starting from an empty display, N completed chat exchanges
leave exactly 2N messages, in chronological order alternating the trimmed
user message then the produced bot response; clearing the chat leaves the
empty sequence. -/
theorem C2_chat_history (exchanges : List (List Char × List Char))
    (h : ∀ e ∈ exchanges, jsTrim e.1 ≠ []) :
    runChatExchanges exchanges [] =
      (exchanges.map (fun e =>
        [(⟨jsTrim e.1, Sender.user⟩ : UiMessage), ⟨e.2, Sender.bot⟩])).flatten ∧
    (runChatExchanges exchanges []).length = 2 * exchanges.length ∧
    clearChat = [] := by
  have heq := runChatExchanges_eq exchanges h []
  rw [List.nil_append] at heq
  refine ⟨heq, ?_, rfl⟩
  rw [heq]
  exact join_pairs_length exchanges _ _

/-- Witness for C2 with two completed exchanges. -/
theorem C2_chat_history_witness :
    (runChatExchanges [(['h', 'i'], ['y', 'o']), (['o', 'k'], ['g', 'o'])] []).length =
      2 * 2 :=
  (C2_chat_history [(['h', 'i'], ['y', 'o']), (['o', 'k'], ['g', 'o'])]
    (by decide)).2.1

/-! ## Order submission (frontend/src/hooks, `useOrder.submitOrder`)

`submitOrder(orderData)` rejects — without issuing the POST — when the
trimmed customer name or phone number is empty, or when the items list is
empty; otherwise it posts the trimmed fields and the items. -/

structure OrderItemReq where
  pizza_id : Nat
  quantity : ℤ
  deriving Repr, DecidableEq

structure OrderFormData where
  customer_name : List Char
  phone_number : List Char
  items : List OrderItemReq
  deriving Repr, DecidableEq

/-- What `submitOrder` does before any network activity: either an early
rejection with a message, or the POST request it would issue. -/
inductive SubmitAction where
  | rejected (message : List Char)
  | postOrder (customer_name phone_number : List Char) (items : List OrderItemReq)
  deriving Repr, DecidableEq

/-- `submitOrder` from useOrder.js (same guards as `handleSubmitOrder`
in App.js): blank name/phone → "Please fill in all fields"; empty cart →
"Please add items to your cart"; otherwise issue the POST. -/
def submitOrder (d : OrderFormData) : SubmitAction :=
  if jsTrim d.customer_name = [] ∨ jsTrim d.phone_number = [] then
    SubmitAction.rejected "Please fill in all fields".toList
  else if d.items = [] then
    SubmitAction.rejected "Please add items to your cart".toList
  else
    SubmitAction.postOrder (jsTrim d.customer_name) (jsTrim d.phone_number) d.items

/-- **C8**: an order submission with an empty items list, or a customer
name or phone number that is empty after trimming, fails validation with
the corresponding message and issues no downstream request (hence nothing
can be persisted). -/
theorem C8_submit_validation (d : OrderFormData)
    (h : jsTrim d.customer_name = [] ∨ jsTrim d.phone_number = [] ∨ d.items = []) :
    (∀ name phone items, submitOrder d ≠ SubmitAction.postOrder name phone items) ∧
    (submitOrder d = SubmitAction.rejected "Please fill in all fields".toList ∨
     submitOrder d = SubmitAction.rejected "Please add items to your cart".toList) := by
  unfold submitOrder
  by_cases h1 : jsTrim d.customer_name = [] ∨ jsTrim d.phone_number = []
  · rw [if_pos h1]
    exact ⟨fun name phone items => by simp, Or.inl rfl⟩
  · have hitems : d.items = [] := by
      rcases h with h' | h' | h'
      · exact absurd (Or.inl h') h1
      · exact absurd (Or.inr h') h1
      · exact h'
    rw [if_neg h1, if_pos hitems]
    exact ⟨fun name phone items => by simp, Or.inr rfl⟩

/-- Witness for C8: a whitespace-only customer name is rejected before any
request is issued. -/
theorem C8_submit_validation_witness :
    submitOrder ⟨[' '], ['1'], [⟨1, 2⟩]⟩ =
        SubmitAction.rejected "Please fill in all fields".toList ∨
      submitOrder ⟨[' '], ['1'], [⟨1, 2⟩]⟩ =
        SubmitAction.rejected "Please add items to your cart".toList :=
  (C8_submit_validation ⟨[' '], ['1'], [⟨1, 2⟩]⟩ (Or.inl (by decide))).2

/-! ## Backend order engine

Data model embedded from the SQLAlchemy classes quoted in the README
(`Pizza`, `Orders`, `OrderItem`).  Note that the `OrderItem` table stores
only `id, order_id, pizza_id, quantity` — it has no unit-price column.
The request-handling code itself is not part of the sources, so the
operations are modelled from the spec (§4.1–§4.3) and the README
validation rules, as indicated on each definition. -/

structure PizzaRow where
  id : Nat
  name : String
  price : ℚ
  deriving Repr, DecidableEq

structure OrderRow where
  id : Nat
  customer_name : List Char
  phone_number : List Char
  total_price : ℚ
  deriving Repr, DecidableEq

/-- `OrderItem` from the README model: `id, order_id, pizza_id, quantity`
and nothing else — in particular no captured unit price. -/
structure OrderItemRow where
  id : Nat
  order_id : Nat
  pizza_id : Nat
  quantity : ℤ
  deriving Repr, DecidableEq

structure Store where
  pizzas : List PizzaRow
  orders : List OrderRow
  order_items : List OrderItemRow
  deriving Repr, DecidableEq

def lookupPizza (pizzas : List PizzaRow) (pid : Nat) : Option PizzaRow :=
  pizzas.find? (fun p => p.id == pid)

/-- The error taxonomy of §7 relevant to order creation: structural
validation errors are distinct constructors from business-rule errors. -/
inductive OrderError where
  | validationError (field reason : String)
  | businessRuleError (rule : String) (limit actual : ℚ)
  deriving Repr, DecidableEq

structure OrderRequest where
  customer_name : List Char
  phone_number : List Char
  items : List OrderItemReq
  deriving Repr, DecidableEq

/-- Modelled from the spec: §4.1 phone rule — leading `+`, digits only
thereafter, length consistent with the stored column width (String(20)). -/
def phoneOk (s : List Char) : Bool :=
  match s with
  | '+' :: rest => !rest.isEmpty && rest.length ≤ 19 && rest.all Char.isDigit
  | _ => false

/-- Modelled from the spec: §4.1 structural validation (name trimmed
length 1–100; phone format; 1–20 lines; quantity 1–50; every pizza id
resolves against the catalog), returning the first failing field. -/
def validateStructure (pizzas : List PizzaRow) (r : OrderRequest) :
    Option OrderError :=
  if (pyStrip r.customer_name).length = 0 ∨ (pyStrip r.customer_name).length > 100 then
    some (OrderError.validationError "customer_name" "must be 1-100 characters")
  else if ¬ phoneOk r.phone_number then
    some (OrderError.validationError "phone_number" "must be international format")
  else if r.items.length = 0 ∨ r.items.length > 20 then
    some (OrderError.validationError "items" "must contain 1-20 items")
  else if r.items.any (fun it => it.quantity < 1 ∨ it.quantity > 50) then
    some (OrderError.validationError "quantity" "must be between 1 and 50")
  else if r.items.any (fun it => (lookupPizza pizzas it.pizza_id).isNone) then
    some (OrderError.validationError "pizza_id" "must reference an existing pizza")
  else
    none

/-- Modelled from the spec: §4.2/§4.3 — resolve every line against the
catalog and sum `price * quantity`; `none` when a pizza id is missing. -/
def computeOrderTotal (pizzas : List PizzaRow) : List OrderItemReq → Option ℚ
  | [] => some 0
  | it :: rest =>
      match lookupPizza pizzas it.pizza_id, computeOrderTotal pizzas rest with
      | some p, some t => some (p.price * it.quantity + t)
      | _, _ => none

/-- Modelled from the spec: §4.3 `createOrder` — validate, price, enforce
the $500 ceiling as a business rule, then persist the order row and its
item rows atomically; on any failure the store is returned unchanged. -/
def createOrder (r : OrderRequest) (st : Store) :
    Except OrderError OrderRow × Store :=
  match validateStructure st.pizzas r with
  | some e => (Except.error e, st)
  | none =>
      match computeOrderTotal st.pizzas r.items with
      | none =>
          (Except.error
            (OrderError.validationError "pizza_id" "must reference an existing pizza"), st)
      | some total =>
          if total > 500 then
            (Except.error (OrderError.businessRuleError "max_order_total" 500 total), st)
          else
            let row : OrderRow :=
              ⟨st.orders.length + 1, pyStrip r.customer_name, pyStrip r.phone_number, total⟩
            let newItems := r.items.enum.map (fun ki =>
              (⟨st.order_items.length + ki.1 + 1, row.id, ki.2.pizza_id, ki.2.quantity⟩ :
                OrderItemRow))
            (Except.ok row,
              { st with orders := st.orders ++ [row],
                        order_items := st.order_items ++ newItems })

/-- `listOrders`: all orders, newest first (creation-time descending). -/
def listOrders (st : Store) : List OrderRow := st.orders.reverse

/-- A catalog price change: only the `pizzas` table is touched. -/
def updatePizzaPrice (pid : Nat) (newPrice : ℚ) (st : Store) : Store :=
  { st with pizzas := st.pizzas.map (fun p =>
      if p.id = pid then { p with price := newPrice } else p) }

/-- The `calculated_item_total` field of the README response format:
since `OrderItem` stores no unit price, it can only be derived from the
current catalog price of the referenced pizza. -/
def calculatedItemTotal (pizzas : List PizzaRow) (it : OrderItemRow) : ℚ :=
  match lookupPizza pizzas it.pizza_id with
  | some p => p.price * it.quantity
  | none => 0

/-! ### Order engine theorems -/

/-- **C4**: a structurally valid submission whose computed total exceeds
the $500 ceiling fails with a `businessRuleError` — a constructor distinct
from `validationError` — and the store is returned unchanged, so the
`listOrders` count is the same before and after. -/
theorem C4_order_ceiling (r : OrderRequest) (st : Store) (total : ℚ)
    (hv : validateStructure st.pizzas r = none)
    (ht : computeOrderTotal st.pizzas r.items = some total)
    (hgt : total > 500) :
    (createOrder r st).1 =
        Except.error (OrderError.businessRuleError "max_order_total" 500 total) ∧
    (createOrder r st).2 = st ∧
    (listOrders (createOrder r st).2).length = (listOrders st).length ∧
    ∀ field reason,
      OrderError.businessRuleError "max_order_total" 500 total ≠
        OrderError.validationError field reason := by
  unfold createOrder
  rw [hv, ht]
  dsimp only
  rw [if_pos hgt]
  exact ⟨rfl, rfl, rfl, fun field reason h => OrderError.noConfusion h⟩

/-- Witness for C4: 40 units of a $13 pizza compute to $520 > $500 and
leave the store unchanged. -/
theorem C4_order_ceiling_witness :
    (createOrder ⟨['J', 'o'], ['+', '1', '2', '3', '4', '5', '6', '7'], [⟨1, 40⟩]⟩
        ⟨[⟨1, "Margherita", 13⟩], [], []⟩).2 =
      ⟨[⟨1, "Margherita", 13⟩], [], []⟩ :=
  (C4_order_ceiling ⟨['J', 'o'], ['+', '1', '2', '3', '4', '5', '6', '7'], [⟨1, 40⟩]⟩
    ⟨[⟨1, "Margherita", 13⟩], [], []⟩ 520
    (by decide)
    (by norm_num [computeOrderTotal, lookupPizza, List.find?])
    (by norm_num)).2.1

/-- A fixed one-pizza catalog at price $12.99 with no orders yet. -/
def storeA : Store := ⟨[⟨1, "Margherita", 1299/100⟩], [], []⟩

/-- A valid two-unit order of pizza 1. -/
def req6 : OrderRequest := ⟨['J', 'o'], ['+', '1', '2', '3', '4', '5', '6', '7'], [⟨1, 2⟩]⟩

/-- The store after creating `req6` in `storeA`. -/
def storeA' : Store := (createOrder req6 storeA).2

/-- `storeA'` after the catalog price of pizza 1 changes to $15.99. -/
def storeA2 : Store := updatePizzaPrice 1 (1599/100) storeA'

/-- **C6**: the claim that each order line record stores the catalog unit
price captured at order time is false of the schema: `OrderItem` has no
price column.  Concretely, after a catalog price change the stored line
row is bit-for-bit unchanged, yet the per-line amount derived for the API
response (`calculated_item_total`) moves from the at-order amount $25.98
to $31.98 — the at-order unit price is not recoverable from the record. -/
theorem C6_counterexample :
    storeA'.order_items = [⟨1, 1, 1, 2⟩] ∧
    storeA2.order_items = [⟨1, 1, 1, 2⟩] ∧
    calculatedItemTotal storeA'.pizzas ⟨1, 1, 1, 2⟩ = 2598/100 ∧
    calculatedItemTotal storeA2.pizzas ⟨1, 1, 1, 2⟩ = 3198/100 ∧
    (2598/100 : ℚ) ≠ 3198/100 := by
  have hval : validateStructure storeA.pizzas req6 = none := by decide
  have hcomp : computeOrderTotal storeA.pizzas req6.items =
      some (1299/100 * ((2 : ℤ) : ℚ) + 0) := by
    norm_num [computeOrderTotal, lookupPizza, List.find?, storeA, req6]
  have hito : storeA'.order_items = [⟨1, 1, 1, 2⟩] := by
    show ((createOrder req6 storeA).2).order_items = _
    unfold createOrder
    rw [hval, hcomp]
    dsimp only
    rw [if_neg (show ¬((1299 : ℚ)/100 * ((2 : ℤ) : ℚ) + 0 > 500) by norm_num)]
    rfl
  have hsto2 : storeA2.order_items = [⟨1, 1, 1, 2⟩] := by
    show (updatePizzaPrice 1 (1599/100) storeA').order_items = _
    unfold updatePizzaPrice
    exact hito
  refine ⟨hito, hsto2, ?_, ?_, by norm_num⟩
  · have hpz : storeA'.pizzas = storeA.pizzas := by
      show ((createOrder req6 storeA).2).pizzas = _
      unfold createOrder
      rw [hval, hcomp]
      dsimp only
      rw [if_neg (show ¬((1299 : ℚ)/100 * ((2 : ℤ) : ℚ) + 0 > 500) by norm_num)]
    rw [hpz]
    norm_num [calculatedItemTotal, lookupPizza, List.find?, storeA]
  · have hpz2 : storeA2.pizzas = [⟨1, "Margherita", 1599/100⟩] := by
      show (updatePizzaPrice 1 (1599/100) storeA').pizzas = _
      have hpz : storeA'.pizzas = storeA.pizzas := by
        show ((createOrder req6 storeA).2).pizzas = _
        unfold createOrder
        rw [hval, hcomp]
        dsimp only
        rw [if_neg (show ¬((1299 : ℚ)/100 * ((2 : ℤ) : ℚ) + 0 > 500) by norm_num)]
      unfold updatePizzaPrice
      rw [hpz]
      simp [storeA]
    rw [hpz2]
    norm_num [calculatedItemTotal, lookupPizza, List.find?]

/-- **C6 (amended)**: the order total is computed and persisted at order
time from the order-time catalog, and a later catalog price change leaves
the stored order rows and line rows entirely unchanged; but the line
records store only `pizza_id` and `quantity` — no captured unit price —
so per-line amounts recomputed from the catalog can change. -/
theorem C6_order_rows_immutable (r : OrderRequest) (st : Store) (total : ℚ)
    (hv : validateStructure st.pizzas r = none)
    (ht : computeOrderTotal st.pizzas r.items = some total)
    (hle : ¬ total > 500) :
    (∃ row : OrderRow, (createOrder r st).1 = Except.ok row ∧ row.total_price = total) ∧
    ∀ (pid : Nat) (newPrice : ℚ),
      (updatePizzaPrice pid newPrice (createOrder r st).2).orders =
          (createOrder r st).2.orders ∧
      (updatePizzaPrice pid newPrice (createOrder r st).2).order_items =
          (createOrder r st).2.order_items := by
  constructor
  · refine ⟨⟨st.orders.length + 1, pyStrip r.customer_name, pyStrip r.phone_number, total⟩,
      ?_, rfl⟩
    unfold createOrder
    rw [hv, ht]
    dsimp only
    rw [if_neg hle]
  · intro pid newPrice
    exact ⟨rfl, rfl⟩

/-- Witness for C6_order_rows_immutable on `storeA` and `req6`. -/
theorem C6_order_rows_immutable_witness :
    (updatePizzaPrice 1 (1599/100) (createOrder req6 storeA).2).order_items =
      (createOrder req6 storeA).2.order_items :=
  ((C6_order_rows_immutable req6 storeA (1299/100 * ((2 : ℤ) : ℚ) + 0)
      (by decide)
      (by norm_num [computeOrderTotal, lookupPizza, List.find?, storeA, req6])
      (by norm_num)).2 1 (1599/100)).2

/-! ## Conversational Session Engine

The backend `PizzaAIService` and chat routes are represented by the
snippets quoted in the documentation (`_load_models`, the
`_enhance_with_domain_knowledge` and knowledge table, the
`@limiter.limit("20 per minute")` decorator) and otherwise modelled from
the spec (§4.4–§4.10), as indicated on each definition. -/

/-- The Response Strategy state machine of §4.6. -/
inductive ModelState where
  | uninitialized
  | ready
  | degraded
  deriving Repr, DecidableEq

/-- Outcome of one call to the opaque generative capability. -/
inductive GenOutcome where
  | success (text : List Char)
  | failure
  deriving Repr, DecidableEq

def lowerChars (s : List Char) : List Char := s.map Char.toLower

/-- Whether the second list starts with the first. -/
def leadsWith : List Char → List Char → Bool
  | [], _ => true
  | _ :: _, [] => false
  | a :: as, b :: bs => a = b && leadsWith as bs

/-- Python `pat in s` substring containment. -/
def hasSub : List Char → List Char → Bool
  | s, pat =>
      match s with
      | [] => pat.isEmpty
      | _ :: rest => leadsWith pat s || hasSub rest pat

/-- The `pizza_knowledge["menu"]` table quoted in the documentation. -/
def pizzaMenuFacts : List (List Char) :=
  ["Margherita Pizza - Classic tomato and mozzarella".toList,
   "Pepperoni Pizza - Spicy pepperoni and cheese".toList,
   "Vegetarian Pizza - Fresh vegetables and cheese".toList]

/-- `_enhance_with_domain_knowledge` from the documentation snippet: when
the user message mentions pizza, append one fact from the menu table
(`k` stands for the random choice). -/
def enhanceWithDomainKnowledge (response userMessage : List Char) (k : Nat) :
    List Char :=
  if hasSub (lowerChars userMessage) "pizza".toList then
    response ++ ' ' :: (pizzaMenuFacts.getD (k % pizzaMenuFacts.length) [])
  else response

/-- Modelled from the spec: §4.8 rule-based fallback — a deterministic
keyword-to-category mapping (menu / pricing / delivery / payment /
greeting) over the knowledge table, with a default response for unmatched
input; never fails. -/
def fallbackResponse (userMessage : List Char) : List Char :=
  let m := lowerChars userMessage
  if hasSub m "menu".toList then
    "Our menu: Margherita Pizza, Pepperoni Pizza, Vegetarian Pizza.".toList
  else if hasSub m "price".toList then
    "Margherita: $12.99, Pepperoni: $14.99, Vegetarian: $13.99.".toList
  else if hasSub m "deliver".toList then
    "Standard delivery: 30-45 minutes. Express delivery: 20-30 minutes.".toList
  else if hasSub m "pay".toList then
    "We accept cash on delivery, credit card, and digital wallets.".toList
  else if hasSub m "hello".toList || hasSub m "hi".toList then
    "Hello! How can I help you today?".toList
  else
    "I can help with our menu, prices, delivery, and payment options.".toList

/-- Modelled from the spec: §4.6 `respond` — in Ready, use the generative
result (enhanced) and fall back on call failure; in Uninitialized or
Degraded always use the rule-based fallback. -/
def respond (state : ModelState) (gen : GenOutcome)
    (userMessage : List Char) (k : Nat) : List Char :=
  match state with
  | ModelState.ready =>
      match gen with
      | GenOutcome.success t => enhanceWithDomainKnowledge t userMessage k
      | GenOutcome.failure => fallbackResponse userMessage
  | _ => fallbackResponse userMessage

/-- The `20 per minute` policy quoted from the chat route decorator. -/
def RATE_LIMIT_MAX : Nat := 20

/-- The rolling window, in seconds. -/
def RATE_WINDOW : Nat := 60

structure ChatState where
  sessions : String → List PyMessage
  limiterLog : String → List Nat
  modelState : ModelState

def emptyChatState (ms : ModelState) : ChatState :=
  ⟨fun _ => [], fun _ => [], ms⟩

inductive ChatResult where
  | ok (response : List Char)
  | rateLimited
  deriving Repr, DecidableEq

def resultIsLimited : ChatResult → Bool
  | ChatResult.rateLimited => true
  | _ => false

/-- Modelled from the spec: §4.9/§4.10 `chat` — sliding-window rate check
(20 requests per rolling 60 seconds per key; a throttling signal, not an
error), then build the context from the session, produce a response via
the Response Strategy, and append the user message followed by the
response to the session. -/
def chat (sid : String) (userMessage : List Char) (now : Nat)
    (gen : GenOutcome) (st : ChatState) : ChatResult × ChatState :=
  let log := st.limiterLog sid
  let recent := log.filter (fun t => now - t < RATE_WINDOW)
  if recent.length < RATE_LIMIT_MAX then
    let session := st.sessions sid
    let response := respond st.modelState gen userMessage 0
    (ChatResult.ok response,
      { st with
          sessions := fun s =>
            if s = sid then
              session ++ [⟨"user".toList, userMessage⟩, ⟨"assistant".toList, response⟩]
            else st.sessions s,
          limiterLog := fun s => if s = sid then now :: recent else st.limiterLog s })
  else
    (ChatResult.rateLimited, st)

/-- `GetChatHistory`. -/
def getChatHistory (sid : String) (st : ChatState) : List PyMessage :=
  st.sessions sid

/-- A sequence of chat calls for one session: each call carries the user
message, its arrival time, and the generative outcome at that call. -/
def runChatCalls (sid : String) :
    List (List Char × Nat × GenOutcome) → ChatState → List ChatResult × ChatState
  | [], st => ([], st)
  | c :: rest, st =>
      let r := chat sid c.1 c.2.1 c.2.2 st
      let rs := runChatCalls sid rest r.2
      (r.1 :: rs.1, rs.2)

/-! ### Rate limiter lemmas -/

theorem filter_window_all {log : List Nat} {a now : Nat}
    (hlog : ∀ t ∈ log, a ≤ t ∧ t < a + 60) (hnow : now < a + 60) :
    log.filter (fun t => now - t < RATE_WINDOW) = log := by
  apply List.filter_eq_self.mpr
  intro t ht
  have := hlog t ht
  simp only [RATE_WINDOW, decide_eq_true_eq]
  omega

theorem chat_fst_isLimited (sid : String) (m : List Char) (now : Nat)
    (g : GenOutcome) (st : ChatState) :
    resultIsLimited (chat sid m now g st).1 =
      !(decide (((st.limiterLog sid).filter
          (fun t => now - t < RATE_WINDOW)).length < RATE_LIMIT_MAX)) := by
  unfold chat
  dsimp only
  by_cases h : ((st.limiterLog sid).filter
      (fun t => now - t < RATE_WINDOW)).length < RATE_LIMIT_MAX
  · rw [if_pos h]
    simp [resultIsLimited, h]
  · rw [if_neg h]
    simp [resultIsLimited, h]

theorem chat_snd_limiterLog (sid : String) (m : List Char) (now : Nat)
    (g : GenOutcome) (st : ChatState) :
    ((chat sid m now g st).2).limiterLog sid =
      if ((st.limiterLog sid).filter
          (fun t => now - t < RATE_WINDOW)).length < RATE_LIMIT_MAX then
        now :: (st.limiterLog sid).filter (fun t => now - t < RATE_WINDOW)
      else st.limiterLog sid := by
  unfold chat
  dsimp only
  by_cases h : ((st.limiterLog sid).filter
      (fun t => now - t < RATE_WINDOW)).length < RATE_LIMIT_MAX
  · rw [if_pos h, if_pos h]
    simp
  · rw [if_neg h, if_neg h]

theorem runChatCalls_limited_pattern (sid : String) :
    ∀ (calls : List (List Char × Nat × GenOutcome)) (st : ChatState) (a : Nat),
      (∀ c ∈ calls, a ≤ c.2.1 ∧ c.2.1 < a + 60) →
      (∀ t ∈ st.limiterLog sid, a ≤ t ∧ t < a + 60) →
      (runChatCalls sid calls st).1.map resultIsLimited =
        (List.range calls.length).map
          (fun i => !(decide (min (st.limiterLog sid).length 20 + i < 20))) := by
  intro calls
  induction calls with
  | nil => intro st a _ _; rfl
  | cons c rest ih =>
      intro st a hc hlog
      have hcnow : a ≤ c.2.1 ∧ c.2.1 < a + 60 := hc c (by simp)
      have hrest : ∀ x ∈ rest, a ≤ x.2.1 ∧ x.2.1 < a + 60 :=
        fun x hx => hc x (List.mem_cons_of_mem c hx)
      have hfil : (st.limiterLog sid).filter (fun t => c.2.1 - t < RATE_WINDOW) =
          st.limiterLog sid := filter_window_all hlog hcnow.2
      show (resultIsLimited (chat sid c.1 c.2.1 c.2.2 st).1) ::
          (runChatCalls sid rest (chat sid c.1 c.2.1 c.2.2 st).2).1.map resultIsLimited =
        _
      rw [List.length_cons, List.range_succ_eq_map, List.map_cons, List.map_map]
      simp only [RATE_LIMIT_MAX] at *
      by_cases hlt : (st.limiterLog sid).length < 20
      · have hlog2 : ∀ t ∈ ((chat sid c.1 c.2.1 c.2.2 st).2).limiterLog sid,
            a ≤ t ∧ t < a + 60 := by
          rw [chat_snd_limiterLog, hfil]
          simp only [RATE_LIMIT_MAX]
          rw [if_pos hlt]
          intro t ht
          rcases List.mem_cons.mp ht with h1 | h1
          · exact h1 ▸ hcnow
          · exact hlog t h1
        have htail := ih ((chat sid c.1 c.2.1 c.2.2 st).2) a hrest hlog2
        have hlen2 : (((chat sid c.1 c.2.1 c.2.2 st).2).limiterLog sid).length =
            (st.limiterLog sid).length + 1 := by
          rw [chat_snd_limiterLog, hfil]
          simp only [RATE_LIMIT_MAX]
          rw [if_pos hlt]
          rfl
        rw [htail, hlen2]
        congr 1
        · rw [chat_fst_isLimited, hfil]
          congr 1
          rw [decide_eq_decide]
          simp only [RATE_LIMIT_MAX]
          omega
        · apply List.map_congr_left
          intro i _
          simp only [Function.comp]
          congr 1
          rw [decide_eq_decide]
          omega
      · have hlog2 : ∀ t ∈ ((chat sid c.1 c.2.1 c.2.2 st).2).limiterLog sid,
            a ≤ t ∧ t < a + 60 := by
          rw [chat_snd_limiterLog, hfil]
          simp only [RATE_LIMIT_MAX]
          rw [if_neg hlt]
          exact hlog
        have htail := ih ((chat sid c.1 c.2.1 c.2.2 st).2) a hrest hlog2
        have hlen2 : (((chat sid c.1 c.2.1 c.2.2 st).2).limiterLog sid).length =
            (st.limiterLog sid).length := by
          rw [chat_snd_limiterLog, hfil]
          simp only [RATE_LIMIT_MAX]
          rw [if_neg hlt]
        rw [htail, hlen2]
        congr 1
        · rw [chat_fst_isLimited, hfil]
          congr 1
          rw [decide_eq_decide]
          simp only [RATE_LIMIT_MAX]
          omega
        · apply List.map_congr_left
          intro i _
          simp only [Function.comp]
          congr 1
          rw [decide_eq_decide]
          omega

/-- **C5**: starting from a fresh limiter state, any 21 chat calls from
the same session falling inside one rolling 60-second window have exactly
the first 20 succeed and the 21st rejected with the `rateLimited`
result — a throttling signal, not an error. -/
theorem C5_rate_limit (sid : String) (calls : List (List Char × Nat × GenOutcome))
    (a : Nat) (ms : ModelState)
    (hlen : calls.length = 21)
    (htimes : ∀ c ∈ calls, a ≤ c.2.1 ∧ c.2.1 < a + 60) :
    (runChatCalls sid calls (emptyChatState ms)).1.map resultIsLimited =
      List.replicate 20 false ++ [true] := by
  have h := runChatCalls_limited_pattern sid calls (emptyChatState ms) a htimes
    (by intro t ht; simp [emptyChatState] at ht)
  rw [h, hlen]
  dsimp only [emptyChatState]
  decide

/-- Witness for C5: 21 identical calls at time 0. -/
theorem C5_rate_limit_witness :
    (runChatCalls "s" (List.replicate 21 (['h', 'i'], (0, GenOutcome.failure)))
        (emptyChatState ModelState.ready)).1.map resultIsLimited =
      List.replicate 20 false ++ [true] :=
  C5_rate_limit "s" (List.replicate 21 (['h', 'i'], (0, GenOutcome.failure))) 0
    ModelState.ready (by decide) (by decide)

/-! ### Fallback lemmas -/

theorem fallbackResponse_ne_nil (m : List Char) : fallbackResponse m ≠ [] := by
  unfold fallbackResponse
  dsimp only
  split_ifs <;> decide

/-- **C7**: a chat call that is not throttled always resolves to the
`ok` result carrying a non-empty text, even when the generative
capability failed to load (state Uninitialized/Degraded) or fails at call
time — in those cases the text is exactly the rule-based fallback, and no
error outcome exists for model unavailability. -/
theorem C7_fallback_total (sid : String) (userMessage : List Char) (now : Nat)
    (gen : GenOutcome) (st : ChatState)
    (hok : ((st.limiterLog sid).filter
        (fun t => now - t < RATE_WINDOW)).length < RATE_LIMIT_MAX)
    (hdeg : st.modelState ≠ ModelState.ready ∨ gen = GenOutcome.failure) :
    (chat sid userMessage now gen st).1 =
        ChatResult.ok (fallbackResponse userMessage) ∧
    fallbackResponse userMessage ≠ [] := by
  refine ⟨?_, fallbackResponse_ne_nil userMessage⟩
  unfold chat
  dsimp only
  rw [if_pos hok]
  have hresp : respond st.modelState gen userMessage 0 = fallbackResponse userMessage := by
    unfold respond
    rcases hdeg with hms | hgen
    · cases h : st.modelState with
      | ready => exact absurd h hms
      | uninitialized => rfl
      | degraded => rfl
    · subst hgen
      cases st.modelState <;> rfl
  rw [hresp]

/-- Witness for C7: with a degraded model and a failing generator, the
chat still answers with the fallback text. -/
theorem C7_fallback_total_witness :
    (chat "s" ['h', 'i'] 0 GenOutcome.failure
        (emptyChatState ModelState.degraded)).1 =
      ChatResult.ok (fallbackResponse ['h', 'i']) :=
  (C7_fallback_total "s" ['h', 'i'] 0 GenOutcome.failure
    (emptyChatState ModelState.degraded)
    (by decide)
    (Or.inl (by decide))).1

end PizzaApp
